import Mathlib

/-!
Shallow embedding of the conflux client message handler
(crates/tor-proto/src/tunnel/reactor/conflux/msghandler/client.rs) and of the
per-hop stream multiplexer (crates/tor-proto/src/tunnel/reactor/circuit/circhop.rs).

Machine integers (u32 seqnos, u64 sequence counters, SystemTime, Duration) are
modelled as Nat: the counters are documented as monotonically increasing
relative sequence numbers, never relied on to wrap.  Rust methods taking
mutable self and returning Result are embedded as functions returning the
post-state paired with an Except value, so that mutation on error paths is
observable.  External collaborators (tor-cell decoding, the stream map, the
per-stream sink and command checker, flow control) are modelled at their
interface boundary; each such definition carries a doc comment saying so.
-/

/-- Relay cell commands relevant to the embedded code.  The source matches on
the specific commands below and treats everything else uniformly; `other`
stands for any remaining command byte. -/
inductive RelayCmd where
  | begin
  | beginDir
  | resolve
  | sendme
  | data
  | endCmd
  | confluxLink
  | confluxLinked
  | confluxLinkedAck
  | confluxSwitch
  | other (code : Nat)
deriving DecidableEq, Repr

/-- An unparsed relay message (UnparsedRelayMsg): a command plus the result of
the typed decode attempts the embedded code performs.
Modelled from the spec: decoding lives in the external tor-cell crate; a field
of value none means the corresponding typed decode fails with a bytes error,
some v means it succeeds and yields v (the nonce of a CONFLUX_LINKED body, the
u32 seqno of a CONFLUX_SWITCH body); sendmeDecodes plays the same role for the
SENDME body. -/
structure Msg where
  cmd : RelayCmd
  linkedNonce : Option Nat
  switchSeqno : Option Nat
  sendmeDecodes : Bool
deriving DecidableEq, Repr

/-- The error kinds produced by the embedded code: Error.CircProto (protocol
violation by the peer), an internal Bug (via the internal! macro), and
Error.from_bytes_err for failed typed decodes. -/
inductive Error where
  | circProto (s : String)
  | bug (s : String)
  | bytesErr (s : String)
deriving DecidableEq, Repr

/-- Stream status as reported by a command checker or half-stream handler. -/
inductive StreamStatus where
  | open
  | closed
deriving DecidableEq, Repr

/-- How to close a stream (CloseStreamBehavior); the default is to send an END
cell with the miscellaneous reason. -/
inductive CloseStreamBehavior where
  | sendEnd
  | dontSendEnd
deriving DecidableEq, Repr

/-- Why a stream entry is being terminated (streammap::TerminateReason). -/
inductive TerminateReason where
  | streamTargetClosed
  | explicitEnd
deriving DecidableEq, Repr

/-- A relay cell queued for sending (SendRelayCell): target hop, early flag,
and an AnyRelayMsgOuter, i.e. an optional stream id plus the message. -/
structure SendRelayCell where
  hop : Nat
  early : Bool
  sid : Option Nat
  msg : Msg
deriving DecidableEq, Repr

/-- Circuit commands handed to the reactor (CircuitCmd). -/
inductive CircuitCmd where
  | send (c : SendRelayCell)
  | closeStream (hop : Nat) (sid : Nat) (behav : CloseStreamBehavior) (reason : TerminateReason)
  | confluxHandshakeComplete (c : SendRelayCell)
deriving DecidableEq, Repr

/-- The hop a circuit command is addressed to. -/
def CircuitCmd.hopOf : CircuitCmd → Nat
  | .send c => c.hop
  | .closeStream h _ _ _ => h
  | .confluxHandshakeComplete c => c.hop

/-! ## Conflux client message handler (client.rs) -/

/-- The state of a client circuit from a conflux set (ConfluxState). -/
inductive ConfluxState where
  | unlinked
  | awaitingLink (nonce : Nat)
  | linked
deriving DecidableEq, Repr

/-- Client-side conflux message handler (ClientConfluxMsgHandler).  The
DynTimeProvider runtime field is replaced by passing the wallclock reading
(now) to handle_conflux_linked directly; V1Nonce, SystemTime and Duration are
modelled as Nat. -/
structure ClientConfluxMsgHandler where
  state : ConfluxState
  nonce : Nat
  join_point : Nat
  init_rtt : Option Nat
  link_sent : Option Nat
  last_seq_recv : Nat
  last_seq_sent : Nat
deriving DecidableEq, Repr

namespace ClientConfluxMsgHandler

/-- ClientConfluxMsgHandler::new. -/
def new (join_point : Nat) (nonce : Nat) : ClientConfluxMsgHandler :=
  { state := ConfluxState.unlinked
    nonce := nonce
    join_point := join_point
    init_rtt := none
    link_sent := none
    last_seq_recv := 0
    last_seq_sent := 0 }

/-- note_link_sent: from Unlinked, move to AwaitingLink(nonce) and record the
timestamp; from any other state return an internal bug error without mutating
anything. -/
def note_link_sent (h : ClientConfluxMsgHandler) (ts : Nat) :
    ClientConfluxMsgHandler × Except Error Unit :=
  match h.state with
  | ConfluxState.unlinked =>
      ({ h with state := ConfluxState.awaitingLink h.nonce, link_sent := some ts },
       Except.ok ())
  | ConfluxState.awaitingLink _ => (h, Except.error (Error.bug "Sent duplicate LINK cell?!"))
  | ConfluxState.linked => (h, Except.error (Error.bug "Sent duplicate LINK cell?!"))

/-- Modelled from the spec: the body of the unsupported_client_cell macro,
defined in circuit.rs which is not part of the sources here.  Per the spec,
CONFLUX_LINK and CONFLUX_LINKED_ACK are "never valid on the client role --
receiving either is a protocol violation"; the macro unconditionally produces
a protocol error. -/
def unsupported_client_cell (_msg : Msg) (_hop : Nat) : Except Error (Option CircuitCmd) :=
  Except.error (Error.circProto "Unexpected cell on client circuit")

/-- handle_conflux_link: rejected unconditionally on the client role. -/
def handle_conflux_link (h : ClientConfluxMsgHandler) (msg : Msg) (hop : Nat) :
    ClientConfluxMsgHandler × Except Error (Option CircuitCmd) :=
  (h, unsupported_client_cell msg hop)

/-- handle_conflux_linked_ack: rejected unconditionally on the client role. -/
def handle_conflux_linked_ack (h : ClientConfluxMsgHandler) (msg : Msg) (hop : Nat) :
    ClientConfluxMsgHandler × Except Error (Option CircuitCmd) :=
  (h, unsupported_client_cell msg hop)

/-- Duration::from_secs(u64::MAX), the fallback RTT used when the wallclock
reading went backwards across the measurement. -/
def durMax : Nat := 18446744073709551615

/-- The LINKED_ACK reply message (ConfluxLinkedAck::default()). -/
def linkedAckMsg : Msg :=
  { cmd := RelayCmd.confluxLinkedAck, linkedNonce := none, switchSeqno := none,
    sendmeDecodes := true }

/-- handle_conflux_linked: requires a prior LINK (link_sent set), state
AwaitingLink, a decodable body, and a nonce equal to the stored one; on
success records the RTT (now minus link_sent, with a huge fallback if the
clock went backwards), moves to Linked, and returns a
ConfluxHandshakeComplete command carrying the LINKED_ACK cell. -/
def handle_conflux_linked (h : ClientConfluxMsgHandler) (msg : Msg) (hop : Nat) (now : Nat) :
    ClientConfluxMsgHandler × Except Error (Option CircuitCmd) :=
  match h.link_sent with
  | none =>
      (h, Except.error (Error.circProto
        "Received CONFLUX_LINKED cell before sending CONFLUX_LINK?!"))
  | some link_sent =>
    match h.state with
    | ConfluxState.unlinked =>
        (h, Except.error (Error.circProto
          "Received CONFLUX_LINKED cell before sending CONFLUX_LINK?!"))
    | ConfluxState.linked =>
        (h, Except.error (Error.circProto
          "Received CONFLUX_LINKED on already linked circuit"))
    | ConfluxState.awaitingLink expected_nonce =>
      match msg.linkedNonce with
      | none => (h, Except.error (Error.bytesErr "linked message"))
      | some linked_nonce =>
        if expected_nonce = linked_nonce then
          let rtt := if link_sent ≤ now then now - link_sent else durMax
          ({ h with state := ConfluxState.linked, init_rtt := some rtt },
           Except.ok (some (CircuitCmd.confluxHandshakeComplete
             { hop := hop, early := false, sid := none, msg := linkedAckMsg })))
        else
          (h, Except.error (Error.circProto
            "Received CONFLUX_LINKED cell with mismatched nonce"))

/-- validate_switch_seqno: the relative sequence number from a SWITCH must be
non-zero. -/
def validate_switch_seqno (rel_seqno : Nat) : Except Error Unit :=
  if rel_seqno = 0 then
    Except.error (Error.circProto "Received SWITCH cell with seqno = 0")
  else
    Except.ok ()

/-- handle_conflux_switch: valid only when Linked; decodes the body, validates
that the relative seqno is non-zero, and adds it to last_seq_recv. -/
def handle_conflux_switch (h : ClientConfluxMsgHandler) (msg : Msg) (_hop : Nat) :
    ClientConfluxMsgHandler × Except Error (Option CircuitCmd) :=
  if h.state ≠ ConfluxState.linked then
    (h, Except.error (Error.circProto "Received CONFLUX_SWITCH on unlinked circuit?!"))
  else
    match msg.switchSeqno with
    | none => (h, Except.error (Error.bytesErr "switch message"))
    | some rel_seqno =>
      match validate_switch_seqno rel_seqno with
      | Except.error e => (h, Except.error e)
      | Except.ok _ =>
          ({ h with last_seq_recv := h.last_seq_recv + rel_seqno }, Except.ok none)

/-- handle_msg: dispatch on the relay command; non-conflux commands are an
internal bug. -/
def handle_msg (h : ClientConfluxMsgHandler) (msg : Msg) (hop : Nat) (now : Nat) :
    ClientConfluxMsgHandler × Except Error (Option CircuitCmd) :=
  match msg.cmd with
  | RelayCmd.confluxLink => h.handle_conflux_link msg hop
  | RelayCmd.confluxLinked => h.handle_conflux_linked msg hop now
  | RelayCmd.confluxLinkedAck => h.handle_conflux_linked_ack msg hop
  | RelayCmd.confluxSwitch => h.handle_conflux_switch msg hop
  | _ => (h, Except.error (Error.bug "received non-conflux cell in conflux handler?!"))

/-- inc_last_seq_recv. -/
def inc_last_seq_recv (h : ClientConfluxMsgHandler) : ClientConfluxMsgHandler :=
  { h with last_seq_recv := h.last_seq_recv + 1 }

/-- inc_last_seq_sent. -/
def inc_last_seq_sent (h : ClientConfluxMsgHandler) : ClientConfluxMsgHandler :=
  { h with last_seq_sent := h.last_seq_sent + 1 }

end ClientConfluxMsgHandler

/-- One mutating operation on a client conflux handler, used to reason about
every sequence of calls. -/
inductive HandlerOp where
  | noteLinkSent (ts : Nat)
  | handleMsg (msg : Msg) (hop : Nat) (now : Nat)
  | incLastSeqRecv
  | incLastSeqSent
deriving DecidableEq, Repr

/-- The handler state after one operation: on a failing call the Rust methods
return early without touching self, so the post-state is the first component
of the embedded result (which equals the input handler on every error path). -/
def stepOp (h : ClientConfluxMsgHandler) (op : HandlerOp) : ClientConfluxMsgHandler :=
  match op with
  | HandlerOp.noteLinkSent ts => (h.note_link_sent ts).1
  | HandlerOp.handleMsg msg hop now => (h.handle_msg msg hop now).1
  | HandlerOp.incLastSeqRecv => h.inc_last_seq_recv
  | HandlerOp.incLastSeqSent => h.inc_last_seq_sent

/-- The handler state after a sequence of operations. -/
def runOps (h : ClientConfluxMsgHandler) (ops : List HandlerOp) : ClientConfluxMsgHandler :=
  ops.foldl stepOp h

/-- Position of a conflux state along the Unlinked, AwaitingLink, Linked
progression. -/
def ConfluxState.rank : ConfluxState → Nat
  | ConfluxState.unlinked => 0
  | ConfluxState.awaitingLink _ => 1
  | ConfluxState.linked => 2

/-! ## Per-hop stream multiplexer (circhop.rs) -/

/-- Modelled from the spec: the per-stream sending flow-control object
(StreamSendFlowControl, external): window-based when the hop uses stream-level
SENDME, signal-based (XON/XOFF) otherwise. -/
inductive FlowCtrl where
  | windowBased (w : Nat)
  | xonXoff
deriving DecidableEq, Repr

/-- Modelled from the spec: OpenStreamEnt::put_for_incoming_sendme, external.
A SENDME is meaningful only for window-based per-stream flow control, where it
adds one window increment; with signal-based flow control a stream-level
SENDME is not expected and is a protocol error. -/
def put_for_incoming_sendme : FlowCtrl → Except Error FlowCtrl
  | FlowCtrl.windowBased w => Except.ok (FlowCtrl.windowBased (w + 50))
  | FlowCtrl.xonXoff =>
      Except.error (Error.circProto "stream level SENDME not expected with this flow control")

/-- Modelled from the spec: the observable behaviour of a stream entry's
bounded outbound sink against one try_send call: it accepts the message, or
reports full, or reports disconnected. -/
inductive SinkState where
  | ready
  | full
  | disconnected
deriving DecidableEq, Repr

/-- An open stream entry (OpenStreamEnt).  The sink is modelled by its state
for the next try_send plus the list of messages delivered so far; the command
checker is modelled as a pure function where none stands for a checker error.
These collaborators are external; modelled from the spec at their interface
boundary. -/
structure OpenStreamEnt where
  sink : SinkState
  sinkBuf : List Msg
  flow : FlowCtrl
  dropped : Nat
  cmdCheck : Msg → Option StreamStatus

/-- An end-sent stream entry (EndSentStreamEnt): carries the half-stream
handler, modelled as a pure function where none stands for an error. -/
structure EndSentStreamEnt where
  halfHandle : Msg → Option StreamStatus

/-- A stream map entry. -/
inductive StreamEnt where
  | open (e : OpenStreamEnt)
  | endSent (e : EndSentStreamEnt)

/-- Whether a stream entry is open. -/
def StreamEnt.isOpen : StreamEnt → Bool
  | StreamEnt.open _ => true
  | StreamEnt.endSent _ => false

/-- Modelled from the spec: the per-hop StreamMap (external collaborator):
a table from stream ids to entries, plus the round-robin queue of streams
with outbound data ready to send, in the order poll_ready_streams_iter yields
them; a ready item with message none is the end-of-stream marker. -/
structure StreamMap where
  entries : List (Nat × StreamEnt)
  ready : List (Nat × Option Msg)

/-- Look up the entry for a stream id in a table. -/
def entriesGet : List (Nat × StreamEnt) → Nat → Option StreamEnt
  | [], _ => none
  | p :: rest, sid => if p.1 == sid then some p.2 else entriesGet rest sid

/-- Replace the entry for a stream id in a table. -/
def entriesUpdate : List (Nat × StreamEnt) → Nat → StreamEnt → List (Nat × StreamEnt)
  | [], _, _ => []
  | p :: rest, sid, e =>
    if p.1 == sid then (p.1, e) :: entriesUpdate rest sid e
    else p :: entriesUpdate rest sid e

namespace StreamMap

/-- Look up the entry for a stream id. -/
def get (m : StreamMap) (sid : Nat) : Option StreamEnt :=
  entriesGet m.entries sid

/-- Replace the entry for a stream id. -/
def update (m : StreamMap) (sid : Nat) (e : StreamEnt) : StreamMap :=
  { m with entries := entriesUpdate m.entries sid e }

/-- Number of open streams in the map. -/
def n_open_streams (m : StreamMap) : Nat :=
  m.entries.countP (fun p => p.2.isOpen)

/-- Modelled from the spec: StreamMap::ending_msg_received (external): note
that the message ending the stream was received, tearing the entry down;
an id with no entry is a protocol error. -/
def ending_msg_received (m : StreamMap) (sid : Nat) : StreamMap × Except Error Unit :=
  match m.get sid with
  | some _ => ({ m with entries := m.entries.filter (fun p => p.1 != sid) }, Except.ok ())
  | none => (m, Except.error (Error.circProto "Received END cell on nonexistent stream"))

end StreamMap

/-- The reactor's view of a single hop (CircHop).  The congestion-control
object is consumed through can_send only, so it is modelled by that Boolean;
the decoder, formats and ids play no role in the embedded operations. -/
structure CircHop where
  hop_num : Nat
  map : StreamMap
  ccontrolCanSend : Bool

namespace CircHop

/-- CircHop::n_open_streams. -/
def n_open_streams (hop : CircHop) : Nat :=
  hop.map.n_open_streams

/-- CircHop::set_stream_map: refuse (with an internal bug error, leaving the
map in place) when the hop still has open streams; otherwise replace the
map. -/
def set_stream_map (hop : CircHop) (m : StreamMap) : CircHop × Except Error Unit :=
  if hop.n_open_streams ≠ 0 then
    (hop, Except.error (Error.bug "Tried to discard existing open streams?!"))
  else
    ({ hop with map := m }, Except.ok ())

/-- CircHop::deliver_msg_to_stream: SENDME messages are decoded, applied via
put_for_incoming_sendme and absorbed; every other message is checked against
the stream's command checker and then offered to the sink, where a full sink
is a protocol violation and a disconnected sink bumps the dropped counter
when the cell counts toward windows.  Returns the updated entry and whether
the message closes the stream. -/
def deliver_msg_to_stream (_streamid : Nat) (ent : OpenStreamEnt)
    (cell_counts_toward_windows : Bool) (msg : Msg) :
    OpenStreamEnt × Except Error Bool :=
  if msg.cmd = RelayCmd.sendme then
    if msg.sendmeDecodes then
      match put_for_incoming_sendme ent.flow with
      | Except.ok fc => ({ ent with flow := fc }, Except.ok false)
      | Except.error e => (ent, Except.error e)
    else
      (ent, Except.error (Error.bytesErr "Sendme message on stream"))
  else
    match ent.cmdCheck msg with
    | none => (ent, Except.error (Error.circProto "command checker rejected message"))
    | some st =>
      let message_closes_stream := decide (st = StreamStatus.closed)
      match ent.sink with
      | SinkState.ready =>
          ({ ent with sinkBuf := ent.sinkBuf ++ [msg] }, Except.ok message_closes_stream)
      | SinkState.full =>
          (ent, Except.error (Error.circProto
            "Stream sink would block; received too many cells on stream"))
      | SinkState.disconnected =>
          ((if cell_counts_toward_windows then { ent with dropped := ent.dropped + 1 } else ent),
           Except.ok message_closes_stream)

/-- CircHop::handle_msg: deliver msg to the stream with the given id if
appropriate; an incoming BEGIN, BEGIN_DIR or RESOLVE for an end-sent or
unknown stream is handed back to the caller; a message for a stream that
never existed is a protocol error.  Returns the post-state of the stream map
and the result. -/
def handle_msg (hop : CircHop) (cell_counts_toward_windows : Bool) (streamid : Nat)
    (msg : Msg) : StreamMap × Except Error (Option Msg) :=
  let m := hop.map
  match m.get streamid with
  | some (StreamEnt.open ent) =>
      match deliver_msg_to_stream streamid ent cell_counts_toward_windows msg with
      | (ent2, Except.ok message_closes_stream) =>
          let m2 := m.update streamid (StreamEnt.open ent2)
          if message_closes_stream then
            match m2.ending_msg_received streamid with
            | (m3, Except.ok _) => (m3, Except.ok none)
            | (m3, Except.error e) => (m3, Except.error e)
          else
            (m2, Except.ok none)
      | (ent2, Except.error e) => (m.update streamid (StreamEnt.open ent2), Except.error e)
  | some (StreamEnt.endSent ent) =>
      if msg.cmd = RelayCmd.begin ∨ msg.cmd = RelayCmd.beginDir ∨ msg.cmd = RelayCmd.resolve then
        match m.ending_msg_received streamid with
        | (m2, Except.ok _) => (m2, Except.ok (some msg))
        | (m2, Except.error e) => (m2, Except.error e)
      else
        match ent.halfHandle msg with
        | some StreamStatus.open => (m, Except.ok none)
        | some StreamStatus.closed =>
            match m.ending_msg_received streamid with
            | (m2, Except.ok _) => (m2, Except.ok none)
            | (m2, Except.error e) => (m2, Except.error e)
        | none => (m, Except.error (Error.circProto "half stream rejected message"))
  | none =>
      if msg.cmd = RelayCmd.begin ∨ msg.cmd = RelayCmd.beginDir ∨ msg.cmd = RelayCmd.resolve then
        (m, Except.ok (some msg))
      else
        (m, Except.error (Error.circProto "Cell received on nonexistent stream!?"))

end CircHop

/-- The per-hop outcome of one scheduling pass of
CircHopList::ready_streams_iterator: a hop whose congestion control forbids
sending is filtered out entirely; otherwise the first ready stream of the hop
is examined, an end-of-stream marker turning into a CloseStream command and a
ready message into a Send command; a hop with no ready stream stays pending
and contributes nothing this pass. -/
def hopReadyCmd (i : Nat) (hop : CircHop) : Option CircuitCmd :=
  if hop.ccontrolCanSend then
    match hop.map.ready.head? with
    | none => none
    | some (sid, none) =>
        some (CircuitCmd.closeStream i sid CloseStreamBehavior.sendEnd
          TerminateReason.streamTargetClosed)
    | some (sid, some m) =>
        some (CircuitCmd.send { hop := i, early := false, sid := some sid, msg := m })
  else
    none

/-- The commands produced by one scheduling pass over the hops starting at
index s (the enumerate plus filter_map of the source). -/
def passAux : Nat → List CircHop → List CircuitCmd
  | _, [] => []
  | s, hop :: rest =>
    match hopReadyCmd s hop with
    | some c => c :: passAux (s + 1) rest
    | none => passAux (s + 1) rest

/-- One scheduling pass of CircHopList::ready_streams_iterator over the whole
hop list. -/
def ready_streams_pass (hops : List CircHop) : List CircuitCmd :=
  passAux 0 hops

/-! ## Helper lemmas for the conflux handler -/

/-- Classification of every mutating handler operation: it leaves the handler
unchanged, performs the Unlinked to AwaitingLink transition, performs the
AwaitingLink to Linked transition, adds a switch delta to last_seq_recv while
Linked, or increments one of the sequence counters. -/
theorem stepOp_cases (h : ClientConfluxMsgHandler) (op : HandlerOp) :
    stepOp h op = h
    ∨ (∃ ts, h.state = ConfluxState.unlinked ∧
        stepOp h op = { h with state := ConfluxState.awaitingLink h.nonce,
                               link_sent := some ts })
    ∨ (∃ n d, h.state = ConfluxState.awaitingLink n ∧
        stepOp h op = { h with state := ConfluxState.linked, init_rtt := some d })
    ∨ (∃ k, h.state = ConfluxState.linked ∧
        stepOp h op = { h with last_seq_recv := h.last_seq_recv + k })
    ∨ stepOp h op = h.inc_last_seq_recv
    ∨ stepOp h op = h.inc_last_seq_sent := by
  cases op with
  | incLastSeqRecv =>
      right; right; right; right; left; rfl
  | incLastSeqSent =>
      right; right; right; right; right; rfl
  | noteLinkSent ts =>
      cases hst : h.state with
      | unlinked =>
          right; left
          exact ⟨ts, rfl, by
            simp [stepOp, ClientConfluxMsgHandler.note_link_sent, hst]⟩
      | awaitingLink n =>
          left; simp [stepOp, ClientConfluxMsgHandler.note_link_sent, hst]
      | linked =>
          left; simp [stepOp, ClientConfluxMsgHandler.note_link_sent, hst]
  | handleMsg msg hop now =>
      cases hcmd : msg.cmd with
      | confluxLink =>
          left
          simp [stepOp, ClientConfluxMsgHandler.handle_msg, hcmd,
            ClientConfluxMsgHandler.handle_conflux_link]
      | confluxLinkedAck =>
          left
          simp [stepOp, ClientConfluxMsgHandler.handle_msg, hcmd,
            ClientConfluxMsgHandler.handle_conflux_linked_ack]
      | confluxSwitch =>
          by_cases hst : h.state = ConfluxState.linked
          · cases hsq : msg.switchSeqno with
            | none =>
                left
                simp [stepOp, ClientConfluxMsgHandler.handle_msg, hcmd,
                  ClientConfluxMsgHandler.handle_conflux_switch, hst, hsq]
            | some k =>
                by_cases hk : k = 0
                · left
                  simp [stepOp, ClientConfluxMsgHandler.handle_msg, hcmd,
                    ClientConfluxMsgHandler.handle_conflux_switch, hst, hsq,
                    ClientConfluxMsgHandler.validate_switch_seqno, hk]
                · right; right; right; left
                  refine ⟨k, hst, ?_⟩
                  simp [stepOp, ClientConfluxMsgHandler.handle_msg, hcmd,
                    ClientConfluxMsgHandler.handle_conflux_switch, hst, hsq,
                    ClientConfluxMsgHandler.validate_switch_seqno, hk]
          · left
            simp [stepOp, ClientConfluxMsgHandler.handle_msg, hcmd,
              ClientConfluxMsgHandler.handle_conflux_switch, hst]
      | confluxLinked =>
          cases hls : h.link_sent with
          | none =>
              left
              simp [stepOp, ClientConfluxMsgHandler.handle_msg, hcmd,
                ClientConfluxMsgHandler.handle_conflux_linked, hls]
          | some t =>
            cases hst : h.state with
            | unlinked =>
                left
                simp [stepOp, ClientConfluxMsgHandler.handle_msg, hcmd,
                  ClientConfluxMsgHandler.handle_conflux_linked, hls, hst]
            | linked =>
                left
                simp [stepOp, ClientConfluxMsgHandler.handle_msg, hcmd,
                  ClientConfluxMsgHandler.handle_conflux_linked, hls, hst]
            | awaitingLink n =>
              cases hdec : msg.linkedNonce with
              | none =>
                  left
                  simp [stepOp, ClientConfluxMsgHandler.handle_msg, hcmd,
                    ClientConfluxMsgHandler.handle_conflux_linked, hls, hst, hdec]
              | some ln =>
                by_cases hn : n = ln
                · right; right; left
                  refine ⟨n, (if t ≤ now then now - t else ClientConfluxMsgHandler.durMax),
                    rfl, ?_⟩
                  simp [stepOp, ClientConfluxMsgHandler.handle_msg, hcmd,
                    ClientConfluxMsgHandler.handle_conflux_linked, hls, hst, hdec, hn]
                · left
                  simp [stepOp, ClientConfluxMsgHandler.handle_msg, hcmd,
                    ClientConfluxMsgHandler.handle_conflux_linked, hls, hst, hdec, hn]
      | begin =>
          left; simp [stepOp, ClientConfluxMsgHandler.handle_msg, hcmd]
      | beginDir =>
          left; simp [stepOp, ClientConfluxMsgHandler.handle_msg, hcmd]
      | resolve =>
          left; simp [stepOp, ClientConfluxMsgHandler.handle_msg, hcmd]
      | sendme =>
          left; simp [stepOp, ClientConfluxMsgHandler.handle_msg, hcmd]
      | data =>
          left; simp [stepOp, ClientConfluxMsgHandler.handle_msg, hcmd]
      | endCmd =>
          left; simp [stepOp, ClientConfluxMsgHandler.handle_msg, hcmd]
      | other code =>
          left; simp [stepOp, ClientConfluxMsgHandler.handle_msg, hcmd]

/-! ## Sample values used by witness theorems -/

/-- A handler awaiting a LINKED reply for nonce 7. -/
def hAwaiting : ClientConfluxMsgHandler :=
  { state := ConfluxState.awaitingLink 7, nonce := 7, join_point := 2, init_rtt := none,
    link_sent := some 100, last_seq_recv := 0, last_seq_sent := 0 }

/-- A linked handler. -/
def hLinked : ClientConfluxMsgHandler :=
  { state := ConfluxState.linked, nonce := 7, join_point := 2, init_rtt := some 50,
    link_sent := some 100, last_seq_recv := 3, last_seq_sent := 0 }

/-- A CONFLUX_LINKED message carrying nonce 7. -/
def msgLinked7 : Msg :=
  { cmd := RelayCmd.confluxLinked, linkedNonce := some 7, switchSeqno := none,
    sendmeDecodes := true }

/-- A CONFLUX_SWITCH message with relative seqno 5. -/
def msgSwitch5 : Msg :=
  { cmd := RelayCmd.confluxSwitch, linkedNonce := none, switchSeqno := some 5,
    sendmeDecodes := true }

/-- A CONFLUX_LINK message. -/
def msgLink : Msg :=
  { cmd := RelayCmd.confluxLink, linkedNonce := none, switchSeqno := none,
    sendmeDecodes := true }

/-! ## Claim theorems: conflux handler -/

/-- C1: for every client conflux handler and every CONFLUX_LINKED message
whose body decodes to nonce k, handle_conflux_linked succeeds iff a LINK was
previously sent and the state is AwaitingLink(k), i.e. the embedded nonce
equals the stored one; in every other state, with no prior LINK, or on a
nonce mismatch it returns a protocol error, and on every error path the
handler, in particular its state field, is unchanged. -/
theorem conflux_linked_success_iff (h : ClientConfluxMsgHandler) (msg : Msg)
    (hop now k : Nat) (hdec : msg.linkedNonce = some k) :
    ((∃ c, (h.handle_conflux_linked msg hop now).2 = Except.ok c) ↔
      h.link_sent.isSome ∧ h.state = ConfluxState.awaitingLink k)
    ∧ (∀ e, (h.handle_conflux_linked msg hop now).2 = Except.error e →
        (h.handle_conflux_linked msg hop now).1 = h ∧ ∃ s, e = Error.circProto s) := by
  cases hls : h.link_sent with
  | none =>
      simp [ClientConfluxMsgHandler.handle_conflux_linked, hls]
  | some t =>
    cases hst : h.state with
    | unlinked =>
        simp [ClientConfluxMsgHandler.handle_conflux_linked, hls, hst]
    | linked =>
        simp [ClientConfluxMsgHandler.handle_conflux_linked, hls, hst]
    | awaitingLink n =>
        by_cases hn : n = k
        · subst hn
          simp [ClientConfluxMsgHandler.handle_conflux_linked, hls, hst, hdec]
        · simp [ClientConfluxMsgHandler.handle_conflux_linked, hls, hst, hdec, hn]

/-- Witness for C1: at a handler awaiting nonce 7 and a LINKED cell carrying
nonce 7 the hypothesis holds and the theorem applies. -/
theorem conflux_linked_success_iff_witness :
    msgLinked7.linkedNonce = some 7
    ∧ (((∃ c, (hAwaiting.handle_conflux_linked msgLinked7 2 150).2 = Except.ok c) ↔
          hAwaiting.link_sent.isSome ∧ hAwaiting.state = ConfluxState.awaitingLink 7)
        ∧ (∀ e, (hAwaiting.handle_conflux_linked msgLinked7 2 150).2 = Except.error e →
            (hAwaiting.handle_conflux_linked msgLinked7 2 150).1 = hAwaiting
            ∧ ∃ s, e = Error.circProto s)) :=
  ⟨rfl, conflux_linked_success_iff hAwaiting msgLinked7 2 150 7 rfl⟩

/-- C2: handle_conflux_switch with relative seqno 0 always errors without
touching last_seq_recv; with seqno k greater than 0 while Linked it succeeds
and last_seq_recv grows by exactly k; in any other state it is a protocol
error that leaves last_seq_recv unchanged. -/
theorem conflux_switch_seqno (h : ClientConfluxMsgHandler) (msg : Msg) (hop : Nat) :
    (msg.switchSeqno = some 0 →
      (∃ e, (h.handle_conflux_switch msg hop).2 = Except.error e)
      ∧ (h.handle_conflux_switch msg hop).1.last_seq_recv = h.last_seq_recv)
    ∧ (∀ k, msg.switchSeqno = some k → 0 < k → h.state = ConfluxState.linked →
        h.handle_conflux_switch msg hop =
          ({ h with last_seq_recv := h.last_seq_recv + k }, Except.ok none))
    ∧ (h.state ≠ ConfluxState.linked →
        (∃ s, (h.handle_conflux_switch msg hop).2 = Except.error (Error.circProto s))
        ∧ (h.handle_conflux_switch msg hop).1.last_seq_recv = h.last_seq_recv) := by
  refine ⟨?_, ?_, ?_⟩
  · intro h0
    by_cases hst : h.state = ConfluxState.linked
    · simp [ClientConfluxMsgHandler.handle_conflux_switch, hst, h0,
        ClientConfluxMsgHandler.validate_switch_seqno]
    · simp [ClientConfluxMsgHandler.handle_conflux_switch, hst]
  · intro k hk hkpos hst
    simp [ClientConfluxMsgHandler.handle_conflux_switch, hst, hk,
      ClientConfluxMsgHandler.validate_switch_seqno, Nat.pos_iff_ne_zero.mp hkpos]
  · intro hst
    simp [ClientConfluxMsgHandler.handle_conflux_switch, hst]

/-- Witness for C2: a linked handler receiving a SWITCH with seqno 5 advances
last_seq_recv from 3 to 8. -/
theorem conflux_switch_seqno_witness :
    hLinked.handle_conflux_switch msgSwitch5 2 =
      ({ hLinked with last_seq_recv := hLinked.last_seq_recv + 5 }, Except.ok none) :=
  (conflux_switch_seqno hLinked msgSwitch5 2).2.1 5 rfl (by decide) rfl

/-- C6: on the client role, handle_msg with a CONFLUX_LINK or
CONFLUX_LINKED_ACK message returns a protocol error in every state and leaves
the handler untouched. -/
theorem client_link_cells_rejected (h : ClientConfluxMsgHandler) (msg : Msg)
    (hop now : Nat)
    (hcmd : msg.cmd = RelayCmd.confluxLink ∨ msg.cmd = RelayCmd.confluxLinkedAck) :
    ∃ s, h.handle_msg msg hop now = (h, Except.error (Error.circProto s)) := by
  rcases hcmd with hcmd | hcmd <;>
    exact ⟨"Unexpected cell on client circuit", by
      simp [ClientConfluxMsgHandler.handle_msg, hcmd,
        ClientConfluxMsgHandler.handle_conflux_link,
        ClientConfluxMsgHandler.handle_conflux_linked_ack,
        ClientConfluxMsgHandler.unsupported_client_cell]⟩

/-- Witness for C6: a linked handler rejects a CONFLUX_LINK cell. -/
theorem client_link_cells_rejected_witness :
    (msgLink.cmd = RelayCmd.confluxLink ∨ msgLink.cmd = RelayCmd.confluxLinkedAck)
    ∧ ∃ s, hLinked.handle_msg msgLink 2 0 = (hLinked, Except.error (Error.circProto s)) :=
  ⟨Or.inl rfl, client_link_cells_rejected hLinked msgLink 2 0 (Or.inl rfl)⟩

/-- One operation moves the state rank by zero or one, never backwards. -/
theorem rank_step (h : ClientConfluxMsgHandler) (op : HandlerOp) :
    (stepOp h op).state.rank = h.state.rank
    ∨ (stepOp h op).state.rank = h.state.rank + 1 := by
  rcases stepOp_cases h op with hEq | ⟨ts, hst, hEq⟩ | ⟨n, d, hst, hEq⟩ |
    ⟨k, hst, hEq⟩ | hEq | hEq
  · left; rw [hEq]
  · right; rw [hEq, hst]; rfl
  · right; rw [hEq, hst]; rfl
  · left; rw [hEq]
  · left; rw [hEq]; simp [ClientConfluxMsgHandler.inc_last_seq_recv]
  · left; rw [hEq]; simp [ClientConfluxMsgHandler.inc_last_seq_sent]

/-- One operation preserves the init_rtt/Linked coupling. -/
theorem stepOp_init_rtt_inv (h : ClientConfluxMsgHandler) (op : HandlerOp)
    (hI : h.init_rtt.isSome ↔ h.state = ConfluxState.linked) :
    ((stepOp h op).init_rtt.isSome ↔ (stepOp h op).state = ConfluxState.linked) := by
  rcases stepOp_cases h op with hEq | ⟨ts, hst, hEq⟩ | ⟨n, d, hst, hEq⟩ |
    ⟨k, hst, hEq⟩ | hEq | hEq
  · rw [hEq]; exact hI
  · rw [hEq]
    rw [hst] at hI
    simp at hI
    simp [hI]
  · rw [hEq]; simp
  · rw [hEq]; simpa using hI
  · rw [hEq]; exact hI
  · rw [hEq]; exact hI

/-- Once Linked, no operation changes init_rtt or leaves the Linked state. -/
theorem stepOp_linked_frozen (h : ClientConfluxMsgHandler) (op : HandlerOp)
    (hl : h.state = ConfluxState.linked) :
    (stepOp h op).init_rtt = h.init_rtt ∧ (stepOp h op).state = ConfluxState.linked := by
  rcases stepOp_cases h op with hEq | ⟨ts, hst, hEq⟩ | ⟨n, d, hst, hEq⟩ |
    ⟨k, hst, hEq⟩ | hEq | hEq
  · rw [hEq]; exact ⟨rfl, hl⟩
  · rw [hst] at hl; cases hl
  · rw [hst] at hl; cases hl
  · rw [hEq]; exact ⟨rfl, hl⟩
  · rw [hEq]; exact ⟨rfl, hl⟩
  · rw [hEq]; exact ⟨rfl, hl⟩

/-- Once Linked, no sequence of operations changes init_rtt or the state. -/
theorem runOps_linked_frozen (h : ClientConfluxMsgHandler) (more : List HandlerOp)
    (hl : h.state = ConfluxState.linked) :
    (runOps h more).init_rtt = h.init_rtt
    ∧ (runOps h more).state = ConfluxState.linked := by
  induction more generalizing h with
  | nil => exact ⟨rfl, hl⟩
  | cons op rest ih =>
      have h1 := stepOp_linked_frozen h op hl
      have h2 := ih (stepOp h op) h1.2
      exact ⟨h2.1.trans h1.1, h2.2⟩

/-- The init_rtt/Linked coupling holds after any run from a state where it
holds. -/
theorem runOps_init_rtt_inv (h : ClientConfluxMsgHandler) (ops : List HandlerOp)
    (hI : h.init_rtt.isSome ↔ h.state = ConfluxState.linked) :
    ((runOps h ops).init_rtt.isSome ↔ (runOps h ops).state = ConfluxState.linked) := by
  induction ops generalizing h with
  | nil => exact hI
  | cons op rest ih => exact ih (stepOp h op) (stepOp_init_rtt_inv h op hI)

/-- C7: on every handler reachable from new by note_link_sent and handle_msg
calls (and the sequence-counter increments), the state rank only moves
forward by at most one step per operation; note_link_sent from Unlinked moves
to AwaitingLink(nonce) recording the timestamp, and from any other state it
returns an internal bug error (a kind distinct from protocol errors) leaving
the handler unchanged. -/
theorem conflux_state_monotone (jp nonce ts : Nat) (ops : List HandlerOp)
    (op : HandlerOp) (h : ClientConfluxMsgHandler)
    (_hreach : h = runOps (ClientConfluxMsgHandler.new jp nonce) ops) :
    ((stepOp h op).state.rank = h.state.rank
      ∨ (stepOp h op).state.rank = h.state.rank + 1)
    ∧ (h.state = ConfluxState.unlinked →
        h.note_link_sent ts =
          ({ h with state := ConfluxState.awaitingLink h.nonce, link_sent := some ts },
           Except.ok ()))
    ∧ (h.state ≠ ConfluxState.unlinked →
        ∃ s, h.note_link_sent ts = (h, Except.error (Error.bug s))) := by
  refine ⟨rank_step h op, ?_, ?_⟩
  · intro hst
    simp [ClientConfluxMsgHandler.note_link_sent, hst]
  · intro hst
    cases hst2 : h.state with
    | unlinked => exact absurd hst2 hst
    | awaitingLink n =>
        exact ⟨"Sent duplicate LINK cell?!", by
          simp [ClientConfluxMsgHandler.note_link_sent, hst2]⟩
    | linked =>
        exact ⟨"Sent duplicate LINK cell?!", by
          simp [ClientConfluxMsgHandler.note_link_sent, hst2]⟩

/-- Witness for C7: the freshly constructed handler is reachable by the empty
sequence and note_link_sent moves it to AwaitingLink recording the
timestamp. -/
theorem conflux_state_monotone_witness :
    ClientConfluxMsgHandler.new 2 7 = runOps (ClientConfluxMsgHandler.new 2 7) []
    ∧ (ClientConfluxMsgHandler.new 2 7).note_link_sent 100 =
        ({ ClientConfluxMsgHandler.new 2 7 with
            state := ConfluxState.awaitingLink (ClientConfluxMsgHandler.new 2 7).nonce,
            link_sent := some 100 }, Except.ok ()) :=
  ⟨rfl,
    (conflux_state_monotone 2 7 100 [] HandlerOp.incLastSeqRecv
      (ClientConfluxMsgHandler.new 2 7) rfl).2.1 rfl⟩

/-- C10: on every handler reachable from new, init_rtt is Some exactly when
the state is Linked; the only operation that can change init_rtt is the
successful handle_conflux_linked performing the AwaitingLink to Linked
transition, and once Linked every further sequence of operations leaves
init_rtt (and the state) untouched. -/
theorem init_rtt_iff_linked (jp nonce : Nat) (ops : List HandlerOp)
    (h : ClientConfluxMsgHandler)
    (hreach : h = runOps (ClientConfluxMsgHandler.new jp nonce) ops) :
    (h.init_rtt.isSome ↔ h.state = ConfluxState.linked)
    ∧ (∀ op2 : HandlerOp, (stepOp h op2).init_rtt ≠ h.init_rtt →
        ∃ n d, h.state = ConfluxState.awaitingLink n ∧
          stepOp h op2 = { h with state := ConfluxState.linked, init_rtt := some d })
    ∧ (h.state = ConfluxState.linked →
        ∀ more : List HandlerOp,
          (runOps h more).init_rtt = h.init_rtt
          ∧ (runOps h more).state = ConfluxState.linked) := by
  refine ⟨?_, ?_, ?_⟩
  · subst hreach
    exact runOps_init_rtt_inv _ ops (by simp [ClientConfluxMsgHandler.new])
  · intro op2 hne
    rcases stepOp_cases h op2 with hEq | ⟨ts, hst, hEq⟩ | hcase |
      ⟨k, hst, hEq⟩ | hEq | hEq
    · exact absurd (by rw [hEq]) hne
    · exact absurd (by rw [hEq]) hne
    · exact hcase
    · exact absurd (by rw [hEq]) hne
    · exact absurd (by rw [hEq]; simp [ClientConfluxMsgHandler.inc_last_seq_recv]) hne
    · exact absurd (by rw [hEq]; simp [ClientConfluxMsgHandler.inc_last_seq_sent]) hne
  · intro hl more
    exact runOps_linked_frozen h more hl

/-- Witness for C10: after sending LINK and receiving the matching LINKED,
the reachable handler is Linked with a measured init_rtt. -/
theorem init_rtt_iff_linked_witness :
    (runOps (ClientConfluxMsgHandler.new 2 7)
        [HandlerOp.noteLinkSent 100, HandlerOp.handleMsg msgLinked7 2 150]).init_rtt.isSome
    ↔ (runOps (ClientConfluxMsgHandler.new 2 7)
        [HandlerOp.noteLinkSent 100, HandlerOp.handleMsg msgLinked7 2 150]).state =
          ConfluxState.linked :=
  (init_rtt_iff_linked 2 7 [HandlerOp.noteLinkSent 100, HandlerOp.handleMsg msgLinked7 2 150]
    _ rfl).1

/-! ## Helper lemmas for the stream map -/

/-- Updating an existing key makes lookups return the new entry. -/
theorem entriesGet_update (l : List (Nat × StreamEnt)) (sid : Nat) (e : StreamEnt)
    (hx : (entriesGet l sid).isSome = true) :
    entriesGet (entriesUpdate l sid e) sid = some e := by
  induction l with
  | nil => simp [entriesGet] at hx
  | cons p rest ih =>
      by_cases hp : (p.1 == sid) = true
      · simp [entriesGet, entriesUpdate, hp]
      · simp only [Bool.not_eq_true] at hp
        simp [entriesGet, entriesUpdate, hp] at hx ⊢
        exact ih hx

/-- Lookup after an update on a map with the key present. -/
theorem StreamMap.get_update (m : StreamMap) (sid : Nat) (e : StreamEnt)
    (hx : (m.get sid).isSome = true) :
    (m.update sid e).get sid = some e :=
  entriesGet_update m.entries sid e hx

/-- ending_msg_received succeeds when the entry exists. -/
theorem StreamMap.ending_ok (m : StreamMap) (sid : Nat)
    (hx : (m.get sid).isSome = true) :
    (m.ending_msg_received sid).2 = Except.ok () := by
  cases hget : m.get sid with
  | none => rw [hget] at hx; simp at hx
  | some v => simp [StreamMap.ending_msg_received, hget]

/-! ## Sample values for the multiplexer witnesses -/

/-- An open entry with a ready sink, window-based flow control and a
permissive command checker. -/
def entReady : OpenStreamEnt :=
  { sink := SinkState.ready, sinkBuf := [], flow := FlowCtrl.windowBased 500,
    dropped := 0, cmdCheck := fun _ => some StreamStatus.open }

/-- A map with the single open stream 5. -/
def mapOne : StreamMap :=
  { entries := [(5, StreamEnt.open entReady)], ready := [] }

/-- A hop owning stream 5. -/
def hopOne : CircHop :=
  { hop_num := 0, map := mapOne, ccontrolCanSend := true }

/-- The empty stream map. -/
def emptyMap : StreamMap :=
  { entries := [], ready := [] }

/-- A hop with no streams. -/
def hopEmpty : CircHop :=
  { hop_num := 0, map := emptyMap, ccontrolCanSend := true }

/-- A DATA message. -/
def msgData : Msg :=
  { cmd := RelayCmd.data, linkedNonce := none, switchSeqno := none, sendmeDecodes := true }

/-- A decodable SENDME message. -/
def msgSendme : Msg :=
  { cmd := RelayCmd.sendme, linkedNonce := none, switchSeqno := none, sendmeDecodes := true }

/-- A BEGIN message. -/
def msgBegin : Msg :=
  { cmd := RelayCmd.begin, linkedNonce := none, switchSeqno := none, sendmeDecodes := true }

/-! ## Claim theorems: stream multiplexer -/

/-- C9: set_stream_map returns an internal bug error exactly when the hop has
one or more open streams, leaving the existing map in place; with zero open
streams the map is replaced and Ok returned. -/
theorem set_stream_map_guard (hop : CircHop) (m : StreamMap) :
    (hop.n_open_streams = 0 →
      hop.set_stream_map m = ({ hop with map := m }, Except.ok ()))
    ∧ (hop.n_open_streams ≠ 0 →
      ∃ s, hop.set_stream_map m = (hop, Except.error (Error.bug s))) := by
  constructor
  · intro h0
    simp [CircHop.set_stream_map, h0]
  · intro h0
    exact ⟨"Tried to discard existing open streams?!", by
      simp [CircHop.set_stream_map, h0]⟩

/-- Witness for C9: a hop with one open stream refuses the swap with a bug
error and keeps its map. -/
theorem set_stream_map_guard_witness :
    hopOne.n_open_streams ≠ 0
    ∧ ∃ s, hopOne.set_stream_map emptyMap = (hopOne, Except.error (Error.bug s)) :=
  ⟨by decide, (set_stream_map_guard hopOne emptyMap).2 (by decide)⟩

/-- C8: a message for a stream id with no entry is handed back unmodified as
Ok(Some(msg)) when its command is BEGIN, BEGIN_DIR or RESOLVE, and any other
command yields a protocol error; the stream map is untouched either way. -/
theorem unknown_stream_dispatch (hop : CircHop) (counts : Bool) (sid : Nat) (msg : Msg)
    (hnone : hop.map.get sid = none) :
    ((msg.cmd = RelayCmd.begin ∨ msg.cmd = RelayCmd.beginDir ∨ msg.cmd = RelayCmd.resolve) →
      hop.handle_msg counts sid msg = (hop.map, Except.ok (some msg)))
    ∧ (¬(msg.cmd = RelayCmd.begin ∨ msg.cmd = RelayCmd.beginDir ∨ msg.cmd = RelayCmd.resolve) →
      ∃ s, hop.handle_msg counts sid msg = (hop.map, Except.error (Error.circProto s))) := by
  constructor
  · intro hcmd
    simp only [CircHop.handle_msg, hnone]
    rw [if_pos hcmd]
  · intro hcmd
    refine ⟨"Cell received on nonexistent stream!?", ?_⟩
    simp only [CircHop.handle_msg, hnone]
    rw [if_neg hcmd]

/-- Witness for C8: a BEGIN for unknown stream 9 is passed back, on a hop
whose map has no entry for 9. -/
theorem unknown_stream_dispatch_witness :
    hopOne.map.get 9 = none
    ∧ hopOne.handle_msg true 9 msgBegin = (hopOne.map, Except.ok (some msgBegin)) :=
  ⟨rfl, (unknown_stream_dispatch hopOne true 9 msgBegin rfl).1 (Or.inl rfl)⟩

/-! ## Helper lemmas for handle_msg on open streams -/

/-- When the entry is open and the delivery succeeds without closing the
stream, handle_msg stores the updated entry and returns Ok(None). -/
theorem handle_msg_open_ok_false (hop : CircHop) (counts : Bool) (sid : Nat) (msg : Msg)
    (ent ent2 : OpenStreamEnt)
    (hopen : hop.map.get sid = some (StreamEnt.open ent))
    (hdel : CircHop.deliver_msg_to_stream sid ent counts msg = (ent2, Except.ok false)) :
    hop.handle_msg counts sid msg =
      (hop.map.update sid (StreamEnt.open ent2), Except.ok none) := by
  simp [CircHop.handle_msg, hopen, hdel]

/-- When the entry is open and the delivery fails, handle_msg stores the
entry state the delivery left behind and propagates the error. -/
theorem handle_msg_open_error (hop : CircHop) (counts : Bool) (sid : Nat) (msg : Msg)
    (ent ent2 : OpenStreamEnt) (e : Error)
    (hopen : hop.map.get sid = some (StreamEnt.open ent))
    (hdel : CircHop.deliver_msg_to_stream sid ent counts msg = (ent2, Except.error e)) :
    hop.handle_msg counts sid msg =
      (hop.map.update sid (StreamEnt.open ent2), Except.error e) := by
  simp [CircHop.handle_msg, hopen, hdel]

/-- When the entry is open and the delivery succeeds, handle_msg returns
Ok(None) whether or not the message closes the stream. -/
theorem handle_msg_open_ok (hop : CircHop) (counts : Bool) (sid : Nat) (msg : Msg)
    (ent ent2 : OpenStreamEnt) (b : Bool)
    (hopen : hop.map.get sid = some (StreamEnt.open ent))
    (hdel : CircHop.deliver_msg_to_stream sid ent counts msg = (ent2, Except.ok b)) :
    (hop.handle_msg counts sid msg).2 = Except.ok none := by
  cases b with
  | false => rw [handle_msg_open_ok_false hop counts sid msg ent ent2 hopen hdel]
  | true =>
      have hsome : ((hop.map.update sid (StreamEnt.open ent2)).get sid).isSome = true := by
        rw [StreamMap.get_update _ _ _ (by rw [hopen]; rfl)]
        rfl
      have hend := StreamMap.ending_ok _ sid hsome
      cases hE : (hop.map.update sid (StreamEnt.open ent2)).ending_msg_received sid with
      | mk m3 r =>
          rw [hE] at hend
          simp only at hend
          subst hend
          simp [CircHop.handle_msg, hopen, hdel, hE]

/-- C3: for an open stream entry, a SENDME is never forwarded to the sink:
whatever the outcome, the entry's sink buffer is unchanged; when the body
decodes and the flow-control accounting accepts it, handle_msg returns
Ok(None) with only the flow-control state updated; and only non-SENDME
messages are run through the command checker and delivered to the sink. -/
theorem sendme_absorbed (hop : CircHop) (counts : Bool) (sid : Nat) (msg : Msg)
    (ent : OpenStreamEnt)
    (hopen : hop.map.get sid = some (StreamEnt.open ent))
    (hcmd : msg.cmd = RelayCmd.sendme) :
    (∀ ent2, (hop.handle_msg counts sid msg).1.get sid = some (StreamEnt.open ent2) →
        ent2.sinkBuf = ent.sinkBuf)
    ∧ (msg.sendmeDecodes = true →
        ∀ fc, put_for_incoming_sendme ent.flow = Except.ok fc →
          hop.handle_msg counts sid msg =
            (hop.map.update sid (StreamEnt.open { ent with flow := fc }), Except.ok none))
    ∧ (∀ msg2 : Msg, msg2.cmd ≠ RelayCmd.sendme →
        (ent.cmdCheck msg2 = none →
          CircHop.deliver_msg_to_stream sid ent counts msg2 =
            (ent, Except.error (Error.circProto "command checker rejected message")))
        ∧ (∀ st, ent.cmdCheck msg2 = some st → ent.sink = SinkState.ready →
            CircHop.deliver_msg_to_stream sid ent counts msg2 =
              ({ ent with sinkBuf := ent.sinkBuf ++ [msg2] },
               Except.ok (decide (st = StreamStatus.closed))))) := by
  have hsome0 : (hop.map.get sid).isSome = true := by rw [hopen]; rfl
  refine ⟨?_, ?_, ?_⟩
  · intro ent2 hget
    cases hdec : msg.sendmeDecodes with
    | false =>
        have hdel : CircHop.deliver_msg_to_stream sid ent counts msg =
            (ent, Except.error (Error.bytesErr "Sendme message on stream")) := by
          simp [CircHop.deliver_msg_to_stream, hcmd, hdec]
        rw [handle_msg_open_error hop counts sid msg ent ent _ hopen hdel] at hget
        rw [StreamMap.get_update _ _ _ hsome0] at hget
        simp only [Option.some.injEq, StreamEnt.open.injEq] at hget
        rw [← hget]
    | true =>
        cases hput : put_for_incoming_sendme ent.flow with
        | ok fc =>
            have hdel : CircHop.deliver_msg_to_stream sid ent counts msg =
                ({ ent with flow := fc }, Except.ok false) := by
              simp [CircHop.deliver_msg_to_stream, hcmd, hdec, hput]
            rw [handle_msg_open_ok_false hop counts sid msg ent _ hopen hdel] at hget
            rw [StreamMap.get_update _ _ _ hsome0] at hget
            simp only [Option.some.injEq, StreamEnt.open.injEq] at hget
            rw [← hget]
        | error e =>
            have hdel : CircHop.deliver_msg_to_stream sid ent counts msg =
                (ent, Except.error e) := by
              simp [CircHop.deliver_msg_to_stream, hcmd, hdec, hput]
            rw [handle_msg_open_error hop counts sid msg ent ent e hopen hdel] at hget
            rw [StreamMap.get_update _ _ _ hsome0] at hget
            simp only [Option.some.injEq, StreamEnt.open.injEq] at hget
            rw [← hget]
  · intro hdec fc hput
    have hdel : CircHop.deliver_msg_to_stream sid ent counts msg =
        ({ ent with flow := fc }, Except.ok false) := by
      simp [CircHop.deliver_msg_to_stream, hcmd, hdec, hput]
    exact handle_msg_open_ok_false hop counts sid msg ent _ hopen hdel
  · intro msg2 hcmd2
    constructor
    · intro hchk
      simp [CircHop.deliver_msg_to_stream, hcmd2, hchk]
    · intro st hchk hsink
      simp [CircHop.deliver_msg_to_stream, hcmd2, hchk, hsink]

/-- Witness for C3: a SENDME on open stream 5 with window-based flow control
is absorbed, bumping the window by one increment. -/
theorem sendme_absorbed_witness :
    hopOne.map.get 5 = some (StreamEnt.open entReady)
    ∧ msgSendme.cmd = RelayCmd.sendme
    ∧ hopOne.handle_msg true 5 msgSendme =
        (hopOne.map.update 5
          (StreamEnt.open { entReady with flow := FlowCtrl.windowBased 550 }),
         Except.ok none) :=
  ⟨rfl, rfl,
    (sendme_absorbed hopOne true 5 msgSendme entReady rfl rfl).2.1 rfl
      (FlowCtrl.windowBased 550) rfl⟩

/-- An open entry whose local consumer is gone (disconnected sink). -/
def entDisc : OpenStreamEnt :=
  { sink := SinkState.disconnected, sinkBuf := [], flow := FlowCtrl.windowBased 500,
    dropped := 0, cmdCheck := fun _ => some StreamStatus.open }

/-- A map with disconnected stream 5. -/
def mapDisc : StreamMap :=
  { entries := [(5, StreamEnt.open entDisc)], ready := [] }

/-- A hop owning disconnected stream 5. -/
def hopDisc : CircHop :=
  { hop_num := 0, map := mapDisc, ccontrolCanSend := true }

/-- An open entry with a full sink. -/
def entFull : OpenStreamEnt :=
  { sink := SinkState.full, sinkBuf := [], flow := FlowCtrl.windowBased 500,
    dropped := 0, cmdCheck := fun _ => some StreamStatus.open }

/-- A map with full-sink stream 5. -/
def mapFull : StreamMap :=
  { entries := [(5, StreamEnt.open entFull)], ready := [] }

/-- A hop owning full-sink stream 5. -/
def hopFull : CircHop :=
  { hop_num := 0, map := mapFull, ccontrolCanSend := true }

/-- Counterexample to C4 as stated: a non-SENDME cell that does not count
toward flow-control windows, delivered to an open stream with a disconnected
sink, makes handle_msg return Ok (no error) while the dropped-cell counter
stays at 0 instead of being incremented. -/
theorem sink_disconnected_no_count_cex :
    entDisc.sink = SinkState.disconnected
    ∧ msgData.cmd ≠ RelayCmd.sendme
    ∧ (hopDisc.handle_msg false 5 msgData).2 = Except.ok none
    ∧ (hopDisc.handle_msg false 5 msgData).1.get 5 = some (StreamEnt.open entDisc)
    ∧ entDisc.dropped = 0 :=
  ⟨rfl, by decide, rfl, rfl, rfl⟩

/-- C4 as amended: delivering a non-SENDME message accepted by the command
checker to an Open stream, a full sink makes handle_msg fail with a
circuit-fatal protocol-violation error, while a disconnected sink causes no
error: handle_msg returns Ok and the dropped-cell counter is incremented
exactly when the cell counts toward flow-control windows. -/
theorem sink_backpressure (hop : CircHop) (counts : Bool) (sid : Nat) (msg : Msg)
    (ent : OpenStreamEnt) (st : StreamStatus)
    (hopen : hop.map.get sid = some (StreamEnt.open ent))
    (hcmd : msg.cmd ≠ RelayCmd.sendme)
    (hchk : ent.cmdCheck msg = some st) :
    (ent.sink = SinkState.full →
      CircHop.deliver_msg_to_stream sid ent counts msg =
        (ent, Except.error (Error.circProto
          "Stream sink would block; received too many cells on stream"))
      ∧ ∃ s, (hop.handle_msg counts sid msg).2 = Except.error (Error.circProto s))
    ∧ (ent.sink = SinkState.disconnected →
      CircHop.deliver_msg_to_stream sid ent counts msg =
        ((if counts then { ent with dropped := ent.dropped + 1 } else ent),
         Except.ok (decide (st = StreamStatus.closed)))
      ∧ (hop.handle_msg counts sid msg).2 = Except.ok none) := by
  constructor
  · intro hsink
    have hdel : CircHop.deliver_msg_to_stream sid ent counts msg =
        (ent, Except.error (Error.circProto
          "Stream sink would block; received too many cells on stream")) := by
      simp [CircHop.deliver_msg_to_stream, hcmd, hchk, hsink]
    refine ⟨hdel, ⟨"Stream sink would block; received too many cells on stream", ?_⟩⟩
    rw [handle_msg_open_error hop counts sid msg ent ent _ hopen hdel]
  · intro hsink
    have hdel : CircHop.deliver_msg_to_stream sid ent counts msg =
        ((if counts then { ent with dropped := ent.dropped + 1 } else ent),
         Except.ok (decide (st = StreamStatus.closed))) := by
      simp [CircHop.deliver_msg_to_stream, hcmd, hchk, hsink]
    exact ⟨hdel, handle_msg_open_ok hop counts sid msg ent _ _ hopen hdel⟩

/-- Witness for the amended C4: a full sink on stream 5 turns a DATA cell
into a protocol error. -/
theorem sink_backpressure_witness :
    hopFull.map.get 5 = some (StreamEnt.open entFull)
    ∧ msgData.cmd ≠ RelayCmd.sendme
    ∧ entFull.cmdCheck msgData = some StreamStatus.open
    ∧ entFull.sink = SinkState.full
    ∧ ∃ s, (hopFull.handle_msg true 5 msgData).2 = Except.error (Error.circProto s) :=
  ⟨rfl, by decide, rfl, rfl,
    ((sink_backpressure hopFull true 5 msgData entFull StreamStatus.open rfl (by decide)
      rfl).1 rfl).2⟩

/-! ## Helper lemmas for the scheduling pass -/

/-- A command produced for hop index i is addressed to hop i. -/
theorem hopReadyCmd_hopOf (i : Nat) (hop : CircHop) (c : CircuitCmd)
    (hc : hopReadyCmd i hop = some c) : c.hopOf = i := by
  cases hcs : hop.ccontrolCanSend with
  | false => simp [hopReadyCmd, hcs] at hc
  | true =>
    cases hh : hop.map.ready.head? with
    | none => simp [hopReadyCmd, hcs, hh] at hc
    | some p =>
      obtain ⟨sid, om⟩ := p
      cases om with
      | none =>
          simp only [hopReadyCmd, hcs, hh, if_true] at hc
          injection hc with hc
          rw [← hc]
          rfl
      | some m =>
          simp only [hopReadyCmd, hcs, hh, if_true] at hc
          injection hc with hc
          rw [← hc]
          rfl

/-- Every command in a pass originates from the hop at its index. -/
theorem passAux_mem (s : Nat) (hops : List CircHop) (c : CircuitCmd)
    (hmem : c ∈ passAux s hops) :
    ∃ j hop2, hops[j]? = some hop2 ∧ hopReadyCmd (s + j) hop2 = some c
      ∧ c.hopOf = s + j := by
  induction hops generalizing s with
  | nil => simp [passAux] at hmem
  | cons hop rest ih =>
      cases hc : hopReadyCmd s hop with
      | some c0 =>
          rw [passAux, hc] at hmem
          rcases List.mem_cons.mp hmem with rfl | hmem2
          · refine ⟨0, hop, by simp, by simpa using hc, ?_⟩
            have := hopReadyCmd_hopOf s hop c hc
            simpa using this
          · obtain ⟨j, hop2, hget, hcmd, hhop⟩ := ih (s + 1) hmem2
            refine ⟨j + 1, hop2, by simpa using hget, ?_, ?_⟩
            · rw [show s + (j + 1) = s + 1 + j by omega]
              exact hcmd
            · rw [show s + (j + 1) = s + 1 + j by omega]
              exact hhop
      | none =>
          rw [passAux, hc] at hmem
          obtain ⟨j, hop2, hget, hcmd, hhop⟩ := ih (s + 1) hmem
          refine ⟨j + 1, hop2, by simpa using hget, ?_, ?_⟩
          · rw [show s + (j + 1) = s + 1 + j by omega]
            exact hcmd
          · rw [show s + (j + 1) = s + 1 + j by omega]
            exact hhop

/-- A command produced at an index of the hop list appears in the pass. -/
theorem passAux_get (s j : Nat) (hops : List CircHop) (hop : CircHop) (c : CircuitCmd)
    (hget : hops[j]? = some hop) (hc : hopReadyCmd (s + j) hop = some c) :
    c ∈ passAux s hops := by
  induction hops generalizing s j with
  | nil => simp at hget
  | cons hop0 rest ih =>
      cases j with
      | zero =>
          have hhop : hop0 = hop := by simpa using hget
          subst hhop
          rw [Nat.add_zero] at hc
          rw [passAux, hc]
          exact List.mem_cons_self _ _
      | succ j2 =>
          have hget2 : rest[j2]? = some hop := by simpa using hget
          have hc2 : hopReadyCmd (s + 1 + j2) hop = some c := by
            rw [show s + 1 + j2 = s + (j2 + 1) by omega]
            exact hc
          have hmem := ih (s + 1) j2 hget2 hc2
          cases hcH : hopReadyCmd s hop0 with
          | none => rw [passAux, hcH]; exact hmem
          | some c0 => rw [passAux, hcH]; exact List.mem_cons_of_mem _ hmem

/-- A pass starting beyond i contains no command for hop i. -/
theorem passAux_countP_lt (i s : Nat) (hops : List CircHop) (hlt : i < s) :
    (passAux s hops).countP (fun c => c.hopOf == i) = 0 := by
  rw [List.countP_eq_zero]
  intro c hmem
  obtain ⟨j, hop2, hget, hcmd, hhop⟩ := passAux_mem s hops c hmem
  simp [hhop]
  omega

/-- Each pass contains at most one command per hop. -/
theorem passAux_countP (i s : Nat) (hops : List CircHop) :
    (passAux s hops).countP (fun c => c.hopOf == i) ≤ 1 := by
  induction hops generalizing s with
  | nil => simp [passAux]
  | cons hop rest ih =>
      cases hc : hopReadyCmd s hop with
      | none => rw [passAux, hc]; exact ih (s + 1)
      | some c0 =>
          rw [passAux, hc, List.countP_cons]
          by_cases hi : (c0.hopOf == i) = true
          · have hs : c0.hopOf = s := hopReadyCmd_hopOf s hop c0 hc
            have his : i = s := by
              simp at hi
              omega
            rw [passAux_countP_lt i (s + 1) rest (by omega)]
            simp [hi]
          · simp only [Bool.not_eq_true] at hi
            simp [hi]
            exact ih (s + 1)

/-- C5: in one scheduling pass, at most one command is produced per hop; a
hop whose congestion control cannot send contributes nothing; and when the
first ready stream of a sendable hop offers the end-of-stream marker, the
pass contains the CloseStream command for that hop and stream id and no
other command (in particular no Send) for that hop. -/
theorem ready_pass_per_hop (hops : List CircHop) (i sid : Nat) (hop : CircHop)
    (hget : hops[i]? = some hop) :
    ((ready_streams_pass hops).countP (fun c => c.hopOf == i) ≤ 1)
    ∧ (hop.ccontrolCanSend = false → ∀ c ∈ ready_streams_pass hops, c.hopOf ≠ i)
    ∧ (hop.ccontrolCanSend = true → hop.map.ready.head? = some (sid, none) →
        (CircuitCmd.closeStream i sid CloseStreamBehavior.sendEnd
            TerminateReason.streamTargetClosed ∈ ready_streams_pass hops)
        ∧ (∀ c ∈ ready_streams_pass hops, c.hopOf = i →
            c = CircuitCmd.closeStream i sid CloseStreamBehavior.sendEnd
              TerminateReason.streamTargetClosed)) := by
  refine ⟨passAux_countP i 0 hops, ?_, ?_⟩
  · intro hcs c hmem hhop
    obtain ⟨j, hop2, hget2, hcmd2, hhop2⟩ := passAux_mem 0 hops c hmem
    rw [Nat.zero_add] at hcmd2 hhop2
    rw [hhop] at hhop2
    subst hhop2
    rw [hget] at hget2
    injection hget2 with hget2
    subst hget2
    simp [hopReadyCmd, hcs] at hcmd2
  · intro hcs hh
    have hcmd : hopReadyCmd (0 + i) hop =
        some (CircuitCmd.closeStream i sid CloseStreamBehavior.sendEnd
          TerminateReason.streamTargetClosed) := by
      rw [Nat.zero_add]
      simp [hopReadyCmd, hcs, hh]
    constructor
    · exact passAux_get 0 i hops hop _ hget hcmd
    · intro c hmem hhop
      obtain ⟨j, hop2, hget2, hcmd2, hhop2⟩ := passAux_mem 0 hops c hmem
      rw [Nat.zero_add] at hcmd2 hhop2
      rw [hhop] at hhop2
      subst hhop2
      rw [hget] at hget2
      injection hget2 with hget2
      subst hget2
      rw [Nat.zero_add] at hcmd
      rw [hcmd] at hcmd2
      injection hcmd2 with hcmd2
      rw [hcmd2]

/-- A hop whose only ready item is the end-of-stream marker of stream 3. -/
def hopClose : CircHop :=
  { hop_num := 0, map := { entries := [], ready := [(3, none)] },
    ccontrolCanSend := true }

/-- A one-hop list for the scheduling witness. -/
def hopsW : List CircHop := [hopClose]

/-- Witness for C5: the pass over hopsW yields the CloseStream command for
hop 0, stream 3. -/
theorem ready_pass_per_hop_witness :
    hopsW[0]? = some hopClose
    ∧ hopClose.ccontrolCanSend = true
    ∧ hopClose.map.ready.head? = some (3, none)
    ∧ CircuitCmd.closeStream 0 3 CloseStreamBehavior.sendEnd
        TerminateReason.streamTargetClosed ∈ ready_streams_pass hopsW :=
  ⟨rfl, rfl, rfl, ((ready_pass_per_hop hopsW 0 3 hopClose rfl).2.2 rfl rfl).1⟩
